import Mathlib

/-!
Shallow embedding of the tttg_mortgage_calculator core computations.

Python floats are modelled as exact rationals (`ℚ`), python `int` values as
`ℤ` or `ℕ` where the guarded code paths coincide.  Every definition is
translated directly from the repository sources:

* `src/mortgage.py` — `calculate_mortgage`, `calculate_amortization`
* `src/income.py`, `src/expenses.py` — income/expense helpers
* `src/src/net_worth.py` — `calculate_net_worth`
* `src/pages/stock_estimator.py` — `calculate_rsu_vesting` (with its inner
  `process_vesting`) and `calculate_espp_vesting`

`calculate_property_from_payment` is imported by the pages and tests from
`src.mortgage` but its definition is not present in the provided sources;
it is modelled from the specification (see its doc comment).
-/

namespace MortgageCalc

/-! ## src/mortgage.py -/

/-- Translation of `calculate_mortgage` from `src/mortgage.py`: monthly payment of a
fixed-rate annuity loan.  Guards: `principal <= down_payment → 0`,
`years <= 0 → 0`, straight-line when the annual rate is `0`. -/
def calculate_mortgage (principal : ℚ) (annual_interest_rate : ℚ)
    (years : ℤ) (down_payment : ℚ) : ℚ :=
  if principal ≤ down_payment then 0
  else
    let principal := principal - down_payment
    if years ≤ 0 then 0
    else if annual_interest_rate = 0 then principal / ((years : ℚ) * 12)
    else
      let monthly_rate := annual_interest_rate / 12 / 100
      let num_payments := (years * 12).toNat
      principal * (monthly_rate * (1 + monthly_rate) ^ num_payments) /
        ((1 + monthly_rate) ^ num_payments - 1)

/-- One row of the amortization schedule produced by
`calculate_amortization` in `src/mortgage.py`. -/
structure AmortRow where
  month : ℕ
  principalPayment : ℚ
  interestPayment : ℚ
  totalPayment : ℚ
  remainingBalance : ℚ
  deriving Repr, DecidableEq

/-- The `for month in range(1, num_payments + 1)` loop of
`calculate_amortization`, with the fuel counting the months left.
The loop appends one row per month and breaks at the first month whose
balance drops to `0` or below. -/
def amortLoop (monthly_rate monthly_payment extra_payment : ℚ) :
    ℚ → ℕ → ℕ → List AmortRow
  | _, _, 0 => []
  | balance, month, fuel + 1 =>
    let interest_payment := balance * monthly_rate
    let uncapped := monthly_payment - interest_payment + extra_payment
    let principal_payment := if balance < uncapped then balance else uncapped
    let balance' := balance - principal_payment
    let row : AmortRow :=
      ⟨month, principal_payment, interest_payment,
        principal_payment + interest_payment, max balance' 0⟩
    if balance' ≤ 0 then [row]
    else row :: amortLoop monthly_rate monthly_payment extra_payment
      balance' (month + 1) fuel

/-- Translation of `calculate_amortization` from `src/mortgage.py`. -/
def calculate_amortization (principal : ℚ) (annual_interest_rate : ℚ)
    (years : ℤ) (down_payment : ℚ) (extra_payment : ℚ) : List AmortRow :=
  if principal ≤ down_payment then []
  else
    let principal := principal - down_payment
    let monthly_rate := annual_interest_rate / 12 / 100
    let num_payments := (years * 12).toNat
    let monthly_payment := calculate_mortgage principal annual_interest_rate years 0
    amortLoop monthly_rate monthly_payment extra_payment principal 1 num_payments

/-! ## src/income.py (identical to src/src/income.py) and src/expenses.py -/

/-- Translation of `convert_usd_to_eur` from `src/src/income.py`. -/
def convert_usd_to_eur (amount_usd exchange_rate transaction_fee : ℚ) : ℚ :=
  let converted := amount_usd * exchange_rate
  max 0 (converted - transaction_fee)

/-- Translation of `total_monthly_income` from `src/src/income.py`. -/
def total_monthly_income (primary_income secondary_income stock_income_eur : ℚ) : ℚ :=
  primary_income + secondary_income + stock_income_eur

/-- Translation of `total_monthly_expenses` from `src/expenses.py`. -/
def total_monthly_expenses (base_expenses : ℚ) : ℚ :=
  base_expenses

/-! ## src/src/net_worth.py -/

/-- Input record of `calculate_net_worth` in `src/src/net_worth.py`.
`years` is the (non-negative) projection horizon; `mortgage_years` keeps the
python `int` type (it is only compared against `0` inside
`calculate_mortgage`). -/
structure NWParams where
  initial_bank_balance : ℚ
  monthly_income1 : ℚ
  monthly_income2 : ℚ
  stock_income : ℚ
  monthly_expenses : ℚ
  years : ℕ
  property_value : ℚ
  home_appreciation_rate : ℚ
  investment_return_rate : ℚ
  stock_growth_rate : ℚ
  mortgage_rate : ℚ
  mortgage_years : ℤ
  down_payment : ℚ
  initial_stock_wealth : ℚ
  bank_reserve_ratio : ℚ
  reinvest_dividends : Bool
  deriving Repr, DecidableEq

/-- The `monthly_income` value in `calculate_net_worth`: stock income is excluded from
regular income when dividends are reinvested. -/
def nw_monthly_income (p : NWParams) : ℚ :=
  if p.reinvest_dividends then
    total_monthly_income p.monthly_income1 p.monthly_income2 0
  else
    total_monthly_income p.monthly_income1 p.monthly_income2 p.stock_income

/-- The `monthly_dividend_reinvest` value in `calculate_net_worth`. -/
def nw_dividend_reinvest (p : NWParams) : ℚ :=
  if p.reinvest_dividends then p.stock_income else 0

/-- The `monthly_payment` value in `calculate_net_worth`. -/
def nw_monthly_payment (p : NWParams) : ℚ :=
  calculate_mortgage p.property_value p.mortgage_rate p.mortgage_years p.down_payment

/-- The `amort` schedule in `calculate_net_worth`. -/
def nw_amort (p : NWParams) : List AmortRow :=
  calculate_amortization p.property_value p.mortgage_rate p.mortgage_years p.down_payment 0

/-- The `principal` value in `calculate_net_worth`. -/
def nw_principal (p : NWParams) : ℚ :=
  max 0 (p.property_value - p.down_payment)

/-- The `monthly_cash_flow` value in `calculate_net_worth`. -/
def monthly_cash_flow (p : NWParams) : ℚ :=
  nw_monthly_income p - total_monthly_expenses p.monthly_expenses - nw_monthly_payment p

/-- The bank-reserve / stock-wealth state of `calculate_net_worth` after `m`
simulated months (the loop body of `src/src/net_worth.py`, lines 108-148):
growth is applied to both buckets, then the monthly cash flow is allocated —
a positive flow is split by `bank_reserve_ratio`, a non-positive one is drawn
from the bank first and then from stocks, clamping both at `0`. -/
def bankStock (p : NWParams) : ℕ → ℚ × ℚ
  | 0 => (p.initial_bank_balance, p.initial_stock_wealth)
  | m + 1 =>
    let prev := bankStock p m
    let current_stock :=
      prev.2 * (1 + p.stock_growth_rate / 12 / 100) + nw_dividend_reinvest p
    let current_bank := prev.1 * (1 + p.investment_return_rate / 12 / 100)
    let c := monthly_cash_flow p
    if 0 < c then
      (current_bank + c * p.bank_reserve_ratio,
       current_stock + c * (1 - p.bank_reserve_ratio))
    else if 0 ≤ current_bank + c then
      (current_bank + c, current_stock)
    else
      (0, max 0 (current_stock - (|c| - current_bank)))

/-- The `home_values` recurrence in `calculate_net_worth`: monthly compounding appreciation. -/
def home_value (p : NWParams) : ℕ → ℚ
  | 0 => p.property_value
  | m + 1 => home_value p m * (1 + p.home_appreciation_rate / 12 / 100)

/-- The `current_mortgage_balance` value for month `month ≥ 1` in `calculate_net_worth`:
row `month - 1` of the amortization schedule, `0` after the schedule ends. -/
def mortgage_balance_at (p : NWParams) (month : ℕ) : ℚ :=
  match (nw_amort p)[month - 1]? with
  | some row => row.remainingBalance
  | none => 0

/-- The `principal_this_month` value for month `month ≥ 1` in `calculate_net_worth`. -/
def principal_payment_at (p : NWParams) (month : ℕ) : ℚ :=
  match (nw_amort p)[month - 1]? with
  | some row => row.principalPayment
  | none => 0

/-- The `principal_paid_list` entry of month `m`: the down payment plus all
principal paid through month `m`. -/
def principal_paid_at (p : NWParams) : ℕ → ℚ
  | 0 => p.down_payment
  | m + 1 => principal_paid_at p m + principal_payment_at p (m + 1)

/-- The `Mortgage Balance` column: the initial mortgage principal at month 0,
then the schedule's remaining balance. -/
def mortgage_balance_col (p : NWParams) (m : ℕ) : ℚ :=
  if m = 0 then nw_principal p else mortgage_balance_at p m

/-- One row of the data frame returned by `calculate_net_worth`. -/
structure Snapshot where
  month : ℕ
  netWorth : ℚ
  bankReserve : ℚ
  stockWealth : ℚ
  liquidAssets : ℚ
  homeValue : ℚ
  homeEquity : ℚ
  mortgageBalance : ℚ
  principalPaid : ℚ
  deriving Repr, DecidableEq

/-- The row of month `m` of the `calculate_net_worth` data frame. -/
def net_worth_snapshot (p : NWParams) (m : ℕ) : Snapshot :=
  let b := (bankStock p m).1
  let s := (bankStock p m).2
  let hv := home_value p m
  let mb := mortgage_balance_col p m
  { month := m
    netWorth := b + s + max 0 (hv - mb)
    bankReserve := b
    stockWealth := s
    liquidAssets := b + s
    homeValue := hv
    homeEquity := max 0 (hv - mb)
    mortgageBalance := mb
    principalPaid := principal_paid_at p m }

/-- Translation of `calculate_net_worth` from `src/src/net_worth.py`: a month-0 snapshot
followed by one snapshot per simulated month. -/
def calculate_net_worth (p : NWParams) : List Snapshot :=
  (List.range (p.years * 12 + 1)).map (net_worth_snapshot p)

/-! ## calculate_property_from_payment (spec-modelled) -/

/-- Modelled from the spec: `calculate_property_from_payment` is imported from
`src.mortgage` by `pages/wealth_calculator.py`, `mortgage_calculator.py` and
the tests, but its definition is missing from the provided sources.  Per the
spec (§4.1 `propertyFromPayment`): zero payment returns `downPayment` exactly;
with zero rate `P = M·n`; otherwise `P = M·((1+r)^n − 1)/(r·(1+r)^n)` with
`r = annualRatePercent/12/100`, `n = termYears·12`; the result is
`P + downPayment`. -/
def calculate_property_from_payment (target_payment annual_interest_rate : ℚ)
    (years : ℤ) (down_payment : ℚ) : ℚ :=
  if target_payment = 0 then down_payment
  else if annual_interest_rate = 0 then
    target_payment * ((years : ℚ) * 12) + down_payment
  else
    let monthly_rate := annual_interest_rate / 12 / 100
    let num_payments := (years * 12).toNat
    target_payment * ((1 + monthly_rate) ^ num_payments - 1) /
      (monthly_rate * (1 + monthly_rate) ^ num_payments) + down_payment

/-! ## src/pages/stock_estimator.py — RSU vesting -/

/-- The mutable per-month columns of `calculate_rsu_vesting`, indexed by the
0-based month (the python `data` dict of lists; the three cumulative columns
are running sums derived afterwards and are not needed by the claims).
All arrays start at `0.0` for every month. -/
structure RSUData where
  vested : ℕ → ℚ
  sold : ℕ → ℚ
  kept : ℕ → ℚ
  taxDue : ℕ → ℚ
  saleProceeds : ℕ → ℚ
  fee : ℕ → ℚ
  restAmount : ℕ → ℚ
  value : ℕ → ℚ

/-- The all-zero initial `data` arrays. -/
def rsuZero : RSUData :=
  ⟨fun _ => 0, fun _ => 0, fun _ => 0, fun _ => 0,
   fun _ => 0, fun _ => 0, fun _ => 0, fun _ => 0⟩

/-- The update `data[col][i] += x`. -/
def addAt (f : ℕ → ℚ) (i : ℕ) (x : ℚ) : ℕ → ℚ :=
  Function.update f i (f i + x)

/-- Translation of `process_vesting` (inner function of `calculate_rsu_vesting`,
`src/pages/stock_estimator.py` lines 274-312): one vesting event of `vested`
shares at 0-based month `vest_index`.  Out-of-range or empty events are
dropped (`vested` and `vest_index` are non-negative python ints, modelled
as `ℕ`, so the `vest_index < 0` part of the guard is vacuous). -/
def process_vesting (months : ℕ) (stock_prices : List ℚ)
    (usd_to_eur transaction_fee_usd selling_loss_usd : ℚ)
    (data : RSUData) (vest_index : ℕ) (vested : ℕ) : RSUData :=
  if vested = 0 ∨ months ≤ vest_index then data
  else
    let stock_price_usd := stock_prices.getD vest_index 0
    let tax_due_usd := (vested : ℚ) * stock_price_usd / 2
    let stocks_sold := vested / 2 + 1
    let stocks_kept := vested - stocks_sold
    let etrade_price_usd := stock_price_usd - selling_loss_usd
    let sale_proceeds_usd := (stocks_sold : ℚ) * etrade_price_usd
    let rest_amount_usd := sale_proceeds_usd - tax_due_usd - transaction_fee_usd
    let stock_price_eur := stock_price_usd * usd_to_eur
    let tax_due_eur := tax_due_usd * usd_to_eur
    let sale_proceeds_eur := sale_proceeds_usd * usd_to_eur
    let transaction_fee_eur := transaction_fee_usd * usd_to_eur
    let rest_amount_eur := rest_amount_usd * usd_to_eur
    let value_eur := (stocks_kept : ℚ) * stock_price_eur
    { vested := addAt data.vested vest_index (vested : ℚ)
      sold := addAt data.sold vest_index (stocks_sold : ℚ)
      kept := addAt data.kept vest_index (stocks_kept : ℚ)
      taxDue := addAt data.taxDue vest_index tax_due_eur
      saleProceeds := addAt data.saleProceeds vest_index sale_proceeds_eur
      fee := addAt data.fee vest_index transaction_fee_eur
      restAmount := addAt data.restAmount vest_index rest_amount_eur
      value := Function.update data.value vest_index
        (max 0 (data.value vest_index + value_eur)) }

/-- Stocks of quarter `q` (0-based): the base tranche plus one of the
remainder stocks for the earliest quarters. -/
def rsu_tranche (base_stocks_per_quarter remainder q : ℕ) : ℕ :=
  base_stocks_per_quarter + (if q < remainder then 1 else 0)

/-- Body of the `for q in range(total_quarters)` loop of
`calculate_rsu_vesting`: quarters inside the delay period are skipped, the
first quarter after the delay pays out all accumulated delayed quarters in
one lump, later quarters pay out individually. -/
def rsu_quarter_step (months : ℕ) (stock_prices : List ℚ)
    (usd_to_eur transaction_fee_usd selling_loss_usd : ℚ)
    (start_offset delay_months base_stocks_per_quarter remainder
      delayed_quarters : ℕ)
    (data : RSUData) (q : ℕ) : RSUData :=
  let quarter_stocks := rsu_tranche base_stocks_per_quarter remainder q
  let quarter_month := (q + 1) * 3
  if quarter_month ≤ delay_months then data
  else if q = delayed_quarters ∧ 0 < delayed_quarters then
    let payout_month := start_offset + delay_months + 3
    let delayed_stocks :=
      ∑ dq in Finset.range delayed_quarters, rsu_tranche base_stocks_per_quarter remainder dq
    process_vesting months stock_prices usd_to_eur transaction_fee_usd
      selling_loss_usd data (payout_month - 1) (delayed_stocks + quarter_stocks)
  else
    let payout_month := start_offset + quarter_month
    process_vesting months stock_prices usd_to_eur transaction_fee_usd
      selling_loss_usd data (payout_month - 1) quarter_stocks

/-- Translation of `calculate_rsu_vesting` from `src/pages/stock_estimator.py` (lines
200-352).  The python guards `vesting_period_months <= 0` and
`total_quarters <= 0` both collapse to `total_quarters = 0` over `ℕ` and
return the all-zero arrays. -/
def calculate_rsu_vesting (total_stocks vesting_period_months : ℕ)
    (stock_prices : List ℚ) (start_offset delay_months : ℕ)
    (usd_to_eur transaction_fee_usd selling_loss_usd : ℚ) : RSUData :=
  let months := stock_prices.length
  let total_quarters := vesting_period_months / 3
  if total_quarters = 0 then rsuZero
  else
    let base_stocks_per_quarter := total_stocks / total_quarters
    let remainder := total_stocks % total_quarters
    let delayed_quarters := delay_months / 3
    (List.range total_quarters).foldl
      (rsu_quarter_step months stock_prices usd_to_eur transaction_fee_usd
        selling_loss_usd start_offset delay_months base_stocks_per_quarter
        remainder delayed_quarters)
      rsuZero

/-! ## src/pages/stock_estimator.py — ESPP vesting -/

/-- The loop state of `calculate_espp_vesting`. -/
structure EsppState where
  accumulated_contribution : ℚ
  period_start_price : ℚ
  deriving Repr, DecidableEq

/-- Purchase-event test of `calculate_espp_vesting`:
`months_since_start % vesting_interval_months == 0 and months_since_start > 0`
with `months_since_start = m - start_offset + 1` (over `ℕ`, `m ≥ start_offset`
makes `months_since_start ≥ 1`, so the positivity conjunct is implied). -/
def espp_is_event (start_offset vesting_interval_months m : ℕ) : Prop :=
  start_offset ≤ m ∧ (m - start_offset + 1) % vesting_interval_months = 0

instance (start_offset vesting_interval_months m : ℕ) :
    Decidable (espp_is_event start_offset vesting_interval_months m) := by
  unfold espp_is_event
  infer_instance

/-- The `calculate_espp_vesting` loop state at the start of month `m`
(0-based): accumulated contribution and the current lookback-window start
price.  `period_start_price` is seeded from the price at `start_offset`. -/
def espp_state (gross_income contribution_percent : ℚ) (stock_prices : List ℚ)
    (discount_rate : ℚ) (vesting_interval_months start_offset : ℕ) :
    ℕ → EsppState
  | 0 =>
    ⟨0, if start_offset < stock_prices.length then stock_prices.getD start_offset 0 else 0⟩
  | m + 1 =>
    let st := espp_state gross_income contribution_percent stock_prices
      discount_rate vesting_interval_months start_offset m
    if start_offset ≤ m then
      let acc := st.accumulated_contribution + gross_income * contribution_percent
      if espp_is_event start_offset vesting_interval_months m then
        ⟨0, stock_prices.getD m 0⟩
      else
        ⟨acc, st.period_start_price⟩
    else st

/-- The `ESPP_Stocks_Bought` entry at month `m` (0-based): on a purchase event the
accumulated contribution buys shares at
`min(period_start_price, current_price) * (1 - discount_rate)`, `0` shares
when the buy price is not positive; `0` on every other month. -/
def espp_stocks_bought (gross_income contribution_percent : ℚ)
    (stock_prices : List ℚ) (discount_rate : ℚ)
    (vesting_interval_months start_offset : ℕ) (m : ℕ) : ℚ :=
  if espp_is_event start_offset vesting_interval_months m then
    let st := espp_state gross_income contribution_percent stock_prices
      discount_rate vesting_interval_months start_offset m
    let accumulated_contribution :=
      st.accumulated_contribution + gross_income * contribution_percent
    let current_price := stock_prices.getD m 0
    let buy_price := min st.period_start_price current_price * (1 - discount_rate)
    if 0 < buy_price then accumulated_contribution / buy_price else 0
  else 0

/-- One row of the `calculate_espp_vesting` data frame. -/
structure EsppRow where
  month : ℕ
  contribution : ℚ
  stocksBought : ℚ
  value : ℚ
  cumulativeStocks : ℚ
  cumulativeValue : ℚ
  deriving Repr, DecidableEq

/-- Translation of `calculate_espp_vesting` from `src/pages/stock_estimator.py` (lines
357-424), one row per month of the price path. -/
def calculate_espp_vesting (gross_income contribution_percent : ℚ)
    (stock_prices : List ℚ) (discount_rate : ℚ)
    (vesting_interval_months start_offset : ℕ) : List EsppRow :=
  (List.range stock_prices.length).map fun m =>
    let bought := espp_stocks_bought gross_income contribution_percent
      stock_prices discount_rate vesting_interval_months start_offset
    let cum := ∑ i in Finset.range (m + 1), bought i
    { month := m + 1
      contribution := if start_offset ≤ m then gross_income * contribution_percent else 0
      stocksBought := bought m
      value := bought m * stock_prices.getD m 0
      cumulativeStocks := cum
      cumulativeValue := cum * stock_prices.getD m 0 }

/-! ## Auxiliary definitions used by the proofs -/

/-- The principal portion paid by one loop iteration of
`calculate_amortization` (capped by the remaining balance). -/
def amortPP (mr M e b : ℚ) : ℚ :=
  if b < M - b * mr + e then b else M - b * mr + e

/-- Balance of the ideal (uncapped, no-extra-payment) annuity recurrence. -/
def idealBalance (mr M P0 : ℚ) : ℕ → ℚ
  | 0 => P0
  | k + 1 => idealBalance mr M P0 k * (1 + mr) - M

/-- All-zero snapshot used as a `getD` default. -/
def nwDummy : Snapshot := ⟨0, 0, 0, 0, 0, 0, 0, 0, 0⟩

/-- Reinvestment scenario of claim C9 (the parameter set of
`test_reinvest_dividends_true`). -/
def nwC9a : NWParams :=
  { initial_bank_balance := 50000, monthly_income1 := 3000,
    monthly_income2 := 0, stock_income := 500, monthly_expenses := 2000,
    years := 1, property_value := 200000, home_appreciation_rate := 0,
    investment_return_rate := 0, stock_growth_rate := 0, mortgage_rate := 0,
    mortgage_years := 30, down_payment := 50000, initial_stock_wealth := 10000,
    bank_reserve_ratio := 1, reinvest_dividends := true }

/-- No-reinvestment scenario of claim C9: same inputs with
`reinvest_dividends = false`. -/
def nwC9b : NWParams :=
  { nwC9a with reinvest_dividends := false }

/-- Counterexample parameters for claim C6 as stated: a bank-reserve ratio of
`2` (outside `[0,1]`, which the claim does not exclude) sends the stock
bucket negative on a positive cash flow. -/
def nwCex6 : NWParams :=
  { initial_bank_balance := 0, monthly_income1 := 1000, monthly_income2 := 0,
    stock_income := 0, monthly_expenses := 0, years := 1, property_value := 0,
    home_appreciation_rate := 0, investment_return_rate := 0,
    stock_growth_rate := 0, mortgage_rate := 0, mortgage_years := 0,
    down_payment := 0, initial_stock_wealth := 0, bank_reserve_ratio := 2,
    reinvest_dividends := true }

/-- Counterexample parameters for claim C1 as stated: with a negative initial
bank balance and a cash flow of exactly `0`, the code takes the draw-down
branch (its test is `cashFlow > 0`, not `≥ 0`) and clamps the bank to `0`,
while the claim's `cashFlow ≥ 0` split would leave the bank negative. -/
def nwCex1 : NWParams :=
  { initial_bank_balance := -100, monthly_income1 := 0, monthly_income2 := 0,
    stock_income := 0, monthly_expenses := 0, years := 1, property_value := 0,
    home_appreciation_rate := 0, investment_return_rate := 0,
    stock_growth_rate := 0, mortgage_rate := 0, mortgage_years := 0,
    down_payment := 0, initial_stock_wealth := 50, bank_reserve_ratio := 1 / 2,
    reinvest_dividends := false }

/-- All-zero witness parameters (ratio 1/2). -/
def nwWit : NWParams :=
  { initial_bank_balance := 0, monthly_income1 := 0, monthly_income2 := 0,
    stock_income := 0, monthly_expenses := 0, years := 1, property_value := 0,
    home_appreciation_rate := 0, investment_return_rate := 0,
    stock_growth_rate := 0, mortgage_rate := 0, mortgage_years := 0,
    down_payment := 0, initial_stock_wealth := 0, bank_reserve_ratio := 1 / 2,
    reinvest_dividends := true }

/-! ## Theorems -/

/-- C10: for every USD amount, exchange rate and transaction fee,
`convert_usd_to_eur` returns exactly `max 0 (amountUsd·exchangeRate − fee)`;
in particular the result is never negative, so a fee larger than the
converted amount yields `0` rather than a negative stock income. -/
theorem C10_convert_usd_to_eur_clamp
    (amount_usd exchange_rate transaction_fee : ℚ) :
    convert_usd_to_eur amount_usd exchange_rate transaction_fee
        = max 0 (amount_usd * exchange_rate - transaction_fee) ∧
      0 ≤ convert_usd_to_eur amount_usd exchange_rate transaction_fee :=
  ⟨rfl, le_max_left 0 _⟩

lemma calculate_mortgage_of_zero (P r d : ℚ) (y : ℤ) (h : P ≤ d ∨ y ≤ 0) :
    calculate_mortgage P r y d = 0 := by
  rcases h with h | h
  · simp [calculate_mortgage, h]
  · rcases le_or_lt P d with h' | h'
    · simp [calculate_mortgage, h']
    · simp [calculate_mortgage, not_le.mpr h', h]

lemma calculate_mortgage_of_rate_zero (P d : ℚ) (y : ℤ) (hPd : d < P) (hy : 0 < y) :
    calculate_mortgage P 0 y d = (P - d) / ((y : ℚ) * 12) := by
  simp [calculate_mortgage, not_le.mpr hPd, not_le.mpr hy]

lemma calculate_mortgage_of_rate_ne (P r d : ℚ) (y : ℤ) (hPd : d < P) (hy : 0 < y)
    (hr : r ≠ 0) :
    calculate_mortgage P r y d =
      (P - d) * (r / 12 / 100 * (1 + r / 12 / 100) ^ (y * 12).toNat) /
        ((1 + r / 12 / 100) ^ (y * 12).toNat - 1) := by
  simp [calculate_mortgage, not_le.mpr hPd, not_le.mpr hy, hr]

/-- C4: `calculate_mortgage` returns `0` when the property value is at most
the down payment or the term is non-positive, the straight-line payment
`(P − d)/(12·years)` at rate `0`, and otherwise the annuity formula
`P·r·(1+r)^n / ((1+r)^n − 1)` with `r = rate/12/100`, `n = 12·years`;
for principal 400000, down payment 80000, rate 4.5 and a 30-year term the
payment lies in `[1621.385, 1621.395)`, so it rounds to 1621.39. -/
theorem C4_calculate_mortgage_formula :
    (∀ (P r d : ℚ) (y : ℤ), P ≤ d ∨ y ≤ 0 → calculate_mortgage P r y d = 0) ∧
    (∀ (P d : ℚ) (y : ℤ), d < P → 0 < y →
      calculate_mortgage P 0 y d = (P - d) / ((y : ℚ) * 12)) ∧
    (∀ (P r d : ℚ) (y : ℤ), d < P → 0 < y → r ≠ 0 →
      calculate_mortgage P r y d =
        (P - d) * (r / 12 / 100 * (1 + r / 12 / 100) ^ (y * 12).toNat) /
          ((1 + r / 12 / 100) ^ (y * 12).toNat - 1)) ∧
    (1621385 / 1000 ≤ calculate_mortgage 400000 (45 / 10) 30 80000 ∧
      calculate_mortgage 400000 (45 / 10) 30 80000 < 1621395 / 1000) := by
  have hval := calculate_mortgage_of_rate_ne 400000 (45 / 10) 80000 30
    (by norm_num) (by norm_num) (by norm_num)
  have hn : (((30 : ℤ) * 12).toNat) = 360 := rfl
  rw [hn] at hval
  refine ⟨fun P r d y h => calculate_mortgage_of_zero P r d y h,
    fun P d y hPd hy => calculate_mortgage_of_rate_zero P d y hPd hy,
    fun P r d y hPd hy hr => calculate_mortgage_of_rate_ne P r d y hPd hy hr,
    ?_, ?_⟩
  · rw [hval]; norm_num
  · rw [hval]; norm_num

theorem C4_calculate_mortgage_formula_witness :
    calculate_mortgage 100000 5 30 150000 = 0 ∧
    calculate_mortgage 120000 0 10 0 = (120000 - 0) / (((10 : ℤ) : ℚ) * 12) ∧
    calculate_mortgage 400000 (45 / 10) 30 80000 =
      (400000 - 80000) *
          (45 / 10 / 12 / 100 * (1 + 45 / 10 / 12 / 100) ^ ((30 : ℤ) * 12).toNat) /
        ((1 + 45 / 10 / 12 / 100) ^ ((30 : ℤ) * 12).toNat - 1) :=
  ⟨C4_calculate_mortgage_formula.1 100000 5 150000 30 (Or.inl (by norm_num)),
   C4_calculate_mortgage_formula.2.1 120000 0 10 (by norm_num) (by norm_num),
   C4_calculate_mortgage_formula.2.2.1 400000 (45 / 10) 80000 30 (by norm_num)
     (by norm_num) (by norm_num)⟩

lemma cpfp_round_trip (M r d : ℚ) (y : ℤ) (hM : 0 < M) (hr : 0 ≤ r) (hy : 1 ≤ y) :
    calculate_mortgage (calculate_property_from_payment M r y d) r y d = M := by
  have hy0 : (0 : ℤ) < y := by omega
  have hyq : (0 : ℚ) < (y : ℚ) := by exact_mod_cast hy0
  rcases eq_or_lt_of_le hr with hr0 | hrpos
  · have hP : calculate_property_from_payment M r y d = M * ((y : ℚ) * 12) + d := by
      simp [calculate_property_from_payment, hM.ne', ← hr0]
    have hlt : d < M * ((y : ℚ) * 12) + d := by nlinarith
    rw [hP, ← hr0, calculate_mortgage_of_rate_zero _ d y hlt hy0]
    field_simp
  · have hmr : 0 < r / 12 / 100 := by positivity
    have hn : (y * 12).toNat ≠ 0 := by
      simp only [ne_eq, Int.toNat_eq_zero, not_le]
      omega
    have hx : 1 < (1 + r / 12 / 100) ^ (y * 12).toNat :=
      one_lt_pow₀ (by linarith) hn
    have hx0 : (0 : ℚ) < (1 + r / 12 / 100) ^ (y * 12).toNat := by linarith
    have hP : calculate_property_from_payment M r y d =
        M * ((1 + r / 12 / 100) ^ (y * 12).toNat - 1) /
          (r / 12 / 100 * (1 + r / 12 / 100) ^ (y * 12).toNat) + d := by
      simp [calculate_property_from_payment, hM.ne', hrpos.ne']
    have hPpos : 0 < M * ((1 + r / 12 / 100) ^ (y * 12).toNat - 1) /
        (r / 12 / 100 * (1 + r / 12 / 100) ^ (y * 12).toNat) := by
      apply div_pos (by nlinarith) (by positivity)
    have hlt : d < calculate_property_from_payment M r y d := by
      rw [hP]; linarith
    have hden1 : (1 + r / 12 / 100) ^ (y * 12).toNat - 1 ≠ 0 := by linarith
    have hden2 : r / 12 / 100 * (1 + r / 12 / 100) ^ (y * 12).toNat ≠ 0 := by positivity
    rw [calculate_mortgage_of_rate_ne _ r d y hlt hy0 hrpos.ne', hP,
      add_sub_cancel_right, div_mul_eq_mul_div, mul_div_cancel_right₀ _ hden2,
      mul_div_assoc, div_self hden1, mul_one]

/-- C3: for every target payment `M > 0`, rate `r ≥ 0`, term of at least one
year and down payment `d`, the property value returned by
`calculate_property_from_payment` reproduces `M` through `calculate_mortgage`
to within `0.01` (in exact arithmetic the round trip is exact), and a zero
payment returns the down payment exactly. -/
theorem C3_property_from_payment_round_trip (M r d : ℚ) (y : ℤ)
    (hM : 0 < M) (hr : 0 ≤ r) (hy : 1 ≤ y) :
    |calculate_mortgage (calculate_property_from_payment M r y d) r y d - M|
        < 1 / 100 ∧
      calculate_property_from_payment 0 r y d = d := by
  constructor
  · rw [cpfp_round_trip M r d y hM hr hy]
    simp only [sub_self, abs_zero]
    norm_num
  · simp [calculate_property_from_payment]

theorem C3_property_from_payment_round_trip_witness :
    |calculate_mortgage (calculate_property_from_payment 1000 0 10 20000) 0 10 20000
        - 1000| < 1 / 100 ∧
      calculate_property_from_payment 0 0 10 20000 = 20000 :=
  C3_property_from_payment_round_trip 1000 0 20000 10 (by norm_num) le_rfl
    (by norm_num)

/-- C7: a single RSU payout of `v ≥ 1` shares at a month with market price
`p` and FX rate 1 records: tax due `v·p/2`, stocks sold `⌊v/2⌋ + 1`, stocks
kept `v` minus stocks sold, sale proceeds `sold·(p − sellingLoss)`, rest
amount `proceeds − tax − fee`, and the event value prices the kept shares at
the unadjusted market price `p`; in particular `v = 35`, `p = 40`,
sellingLoss `0.05`, fee `9.99` yields 18 stocks sold, tax 700, proceeds
719.1 and rest 9.11 (exactly, hence within 0.01). -/
theorem C7_process_vesting_tax_sell (months vest_index v : ℕ)
    (stock_prices : List ℚ) (transaction_fee_usd selling_loss_usd : ℚ)
    (hv : 1 ≤ v) (hi : vest_index < months)
    (hp : 0 ≤ stock_prices.getD vest_index 0) :
    ((process_vesting months stock_prices 1 transaction_fee_usd
          selling_loss_usd rsuZero vest_index v).taxDue vest_index
        = (v : ℚ) * stock_prices.getD vest_index 0 / 2 ∧
      (process_vesting months stock_prices 1 transaction_fee_usd
          selling_loss_usd rsuZero vest_index v).sold vest_index
        = ((v / 2 + 1 : ℕ) : ℚ) ∧
      (process_vesting months stock_prices 1 transaction_fee_usd
          selling_loss_usd rsuZero vest_index v).kept vest_index
        = (v : ℚ) - ((v / 2 + 1 : ℕ) : ℚ) ∧
      (process_vesting months stock_prices 1 transaction_fee_usd
          selling_loss_usd rsuZero vest_index v).saleProceeds vest_index
        = ((v / 2 + 1 : ℕ) : ℚ) * (stock_prices.getD vest_index 0 - selling_loss_usd) ∧
      (process_vesting months stock_prices 1 transaction_fee_usd
          selling_loss_usd rsuZero vest_index v).restAmount vest_index
        = (process_vesting months stock_prices 1 transaction_fee_usd
            selling_loss_usd rsuZero vest_index v).saleProceeds vest_index
          - (process_vesting months stock_prices 1 transaction_fee_usd
              selling_loss_usd rsuZero vest_index v).taxDue vest_index
          - transaction_fee_usd ∧
      (process_vesting months stock_prices 1 transaction_fee_usd
          selling_loss_usd rsuZero vest_index v).value vest_index
        = ((v : ℚ) - ((v / 2 + 1 : ℕ) : ℚ)) * stock_prices.getD vest_index 0) ∧
    ((process_vesting 1 [40] 1 (999 / 100) (5 / 100) rsuZero 0 35).sold 0 = 18 ∧
      (process_vesting 1 [40] 1 (999 / 100) (5 / 100) rsuZero 0 35).taxDue 0 = 700 ∧
      (process_vesting 1 [40] 1 (999 / 100) (5 / 100) rsuZero 0 35).saleProceeds 0
        = 7191 / 10 ∧
      (process_vesting 1 [40] 1 (999 / 100) (5 / 100) rsuZero 0 35).restAmount 0
        = 911 / 100) := by
  have hsold : v / 2 + 1 ≤ v := by omega
  have hkept : ((v - (v / 2 + 1) : ℕ) : ℚ) = (v : ℚ) - ((v / 2 + 1 : ℕ) : ℚ) := by
    rw [Nat.cast_sub hsold]
  have hguard : ¬(v = 0 ∨ months ≤ vest_index) := by omega
  have hkp : (0 : ℚ) ≤ ((v - (v / 2 + 1) : ℕ) : ℚ) * (stock_prices.getD vest_index 0 * 1) :=
    mul_nonneg (Nat.cast_nonneg _) (by rw [mul_one]; exact hp)
  constructor
  · refine ⟨?_, ?_, ?_, ?_, ?_, ?_⟩ <;>
      simp only [process_vesting, if_neg hguard, addAt, Function.update_same,
        rsuZero, zero_add, mul_one]
    · exact hkept
    · rw [max_eq_right (by simpa using hkp), hkept]
  · refine ⟨?_, ?_, ?_, ?_⟩ <;>
      norm_num [process_vesting, addAt, rsuZero, Function.update_same]

theorem C7_process_vesting_tax_sell_witness :
    (((process_vesting 1 [40] 1 (999 / 100) (5 / 100) rsuZero 0 35).taxDue 0
        = (35 : ℚ) * ([40] : List ℚ).getD 0 0 / 2 ∧
      (process_vesting 1 [40] 1 (999 / 100) (5 / 100) rsuZero 0 35).sold 0
        = ((35 / 2 + 1 : ℕ) : ℚ) ∧
      (process_vesting 1 [40] 1 (999 / 100) (5 / 100) rsuZero 0 35).kept 0
        = (35 : ℚ) - ((35 / 2 + 1 : ℕ) : ℚ) ∧
      (process_vesting 1 [40] 1 (999 / 100) (5 / 100) rsuZero 0 35).saleProceeds 0
        = ((35 / 2 + 1 : ℕ) : ℚ) * (([40] : List ℚ).getD 0 0 - 5 / 100) ∧
      (process_vesting 1 [40] 1 (999 / 100) (5 / 100) rsuZero 0 35).restAmount 0
        = (process_vesting 1 [40] 1 (999 / 100) (5 / 100) rsuZero 0 35).saleProceeds 0
          - (process_vesting 1 [40] 1 (999 / 100) (5 / 100) rsuZero 0 35).taxDue 0
          - 999 / 100 ∧
      (process_vesting 1 [40] 1 (999 / 100) (5 / 100) rsuZero 0 35).value 0
        = ((35 : ℚ) - ((35 / 2 + 1 : ℕ) : ℚ)) * ([40] : List ℚ).getD 0 0) ∧
     ((process_vesting 1 [40] 1 (999 / 100) (5 / 100) rsuZero 0 35).sold 0 = 18 ∧
      (process_vesting 1 [40] 1 (999 / 100) (5 / 100) rsuZero 0 35).taxDue 0 = 700 ∧
      (process_vesting 1 [40] 1 (999 / 100) (5 / 100) rsuZero 0 35).saleProceeds 0
        = 7191 / 10 ∧
      (process_vesting 1 [40] 1 (999 / 100) (5 / 100) rsuZero 0 35).restAmount 0
        = 911 / 100)) :=
  C7_process_vesting_tax_sell 1 0 35 [40] (999 / 100) (5 / 100) (by norm_num)
    (by norm_num) (by norm_num)

/-! ### Helper lemmas for the amortization schedule (claim C5) -/

lemma amortLoop_succ (mr M e b : ℚ) (m f' : ℕ) :
    amortLoop mr M e b m (f' + 1) =
      if b - amortPP mr M e b ≤ 0 then
        [⟨m, amortPP mr M e b, b * mr, amortPP mr M e b + b * mr,
          max (b - amortPP mr M e b) 0⟩]
      else
        ⟨m, amortPP mr M e b, b * mr, amortPP mr M e b + b * mr,
            max (b - amortPP mr M e b) 0⟩ ::
          amortLoop mr M e (b - amortPP mr M e b) (m + 1) f' := by
  simp only [amortLoop, amortPP]

lemma amortPP_nonneg (mr M e b : ℚ) (hb : 0 ≤ b) (hunc : 0 ≤ M - b * mr + e) :
    0 ≤ amortPP mr M e b := by
  unfold amortPP
  split <;> linarith

lemma amortLoop_ne_nil (mr M e b : ℚ) (m f : ℕ) (hf : 0 < f) :
    amortLoop mr M e b m f ≠ [] := by
  cases f with
  | zero => omega
  | succ f' =>
    rw [amortLoop_succ]
    split <;> simp

lemma amortLoop_length (mr M e : ℚ) :
    ∀ (f : ℕ) (b : ℚ) (m : ℕ), (amortLoop mr M e b m f).length ≤ f := by
  intro f
  induction f with
  | zero => intro b m; simp [amortLoop]
  | succ f' ih =>
    intro b m
    rw [amortLoop_succ]
    split
    · simp
    · simp only [List.length_cons]
      exact Nat.succ_le_succ (ih _ _)

lemma amortLoop_mid_pos (mr M e : ℚ) :
    ∀ (f : ℕ) (b : ℚ) (m i : ℕ), i + 1 < (amortLoop mr M e b m f).length →
      0 < ((amortLoop mr M e b m f).getD i ⟨0, 0, 0, 0, 0⟩).remainingBalance := by
  intro f
  induction f with
  | zero => intro b m i h; simp [amortLoop] at h
  | succ f' ih =>
    intro b m i h
    rw [amortLoop_succ] at h ⊢
    split at h
    · simp at h
    · rename_i hbr
      rw [if_neg hbr]
      cases i with
      | zero =>
        simp only [List.getD_cons_zero]
        exact lt_max_iff.mpr (Or.inl (by linarith [not_le.mp hbr]))
      | succ j =>
        simp only [List.getD_cons_succ]
        simp only [List.length_cons] at h
        exact ih _ _ j (by omega)

lemma amortLoop_head_balance (mr M e : ℚ) (f : ℕ) (b : ℚ) (m : ℕ)
    (hpp : 0 ≤ M - b * mr + e) (hb : 0 ≤ b) :
    ∀ x ∈ (amortLoop mr M e b m f).head?, x.remainingBalance ≤ max b 0 := by
  cases f with
  | zero => simp [amortLoop]
  | succ f' =>
    rw [amortLoop_succ]
    have hkey : max (b - amortPP mr M e b) 0 ≤ max b 0 := by
      refine max_le_max ?_ le_rfl
      have := amortPP_nonneg mr M e b hb hpp
      linarith
    split <;>
      (intro x hx
       simp only [List.head?_cons, Option.mem_def, Option.some.injEq] at hx
       subst hx
       exact hkey)

lemma amortLoop_chain (mr M e P0 : ℚ) (hmr : 0 ≤ mr) (he : 0 ≤ e)
    (hM : P0 * mr ≤ M) :
    ∀ (f : ℕ) (b : ℚ) (m : ℕ), 0 < b → b ≤ P0 →
      List.Chain' (fun a c => c.remainingBalance ≤ a.remainingBalance)
        (amortLoop mr M e b m f) := by
  intro f
  induction f with
  | zero => intro b m _ _; simp [amortLoop]
  | succ f' ih =>
    intro b m hb hbP
    have hunc : 0 ≤ M - b * mr + e := by
      have : b * mr ≤ P0 * mr := mul_le_mul_of_nonneg_right hbP hmr
      linarith
    have hle : b - amortPP mr M e b ≤ b := by
      have := amortPP_nonneg mr M e b hb.le hunc
      linarith
    rw [amortLoop_succ]
    split
    · exact List.chain'_singleton _
    · rename_i hbr
      have hb' : 0 < b - amortPP mr M e b := lt_of_not_le hbr
      rw [List.chain'_cons']
      refine ⟨?_, ih _ (m + 1) hb' (le_trans hle hbP)⟩
      have hunc' : 0 ≤ M - (b - amortPP mr M e b) * mr + e := by
        have h1 : (b - amortPP mr M e b) * mr ≤ P0 * mr :=
          mul_le_mul_of_nonneg_right (le_trans hle hbP) hmr
        linarith
      intro x hx
      exact amortLoop_head_balance mr M e f' (b - amortPP mr M e b) (m + 1)
        hunc' hb'.le x hx

lemma geom_shift (x : ℚ) :
    ∀ k : ℕ, x * ∑ i in Finset.range k, x ^ i
      = (∑ i in Finset.range (k + 1), x ^ i) - 1 := by
  intro k
  induction k with
  | zero => simp
  | succ n ih =>
    rw [Finset.sum_range_succ (fun i => x ^ i) n, mul_add, ih,
      Finset.sum_range_succ (fun i => x ^ i) (n + 1)]
    ring

lemma idealBalance_closed (mr M P0 : ℚ) :
    ∀ k : ℕ, idealBalance mr M P0 k
      = P0 * (1 + mr) ^ k - M * ∑ i in Finset.range k, (1 + mr) ^ i := by
  intro k
  induction k with
  | zero => simp [idealBalance]
  | succ n ih =>
    have hs := geom_shift (1 + mr) n
    rw [Finset.sum_range_succ (fun i => (1 + mr) ^ i) n] at hs
    rw [idealBalance, ih, Finset.sum_range_succ (fun i => (1 + mr) ^ i) n]
    linear_combination (-M) * hs

lemma idealBalance_le (mr M P0 : ℚ) (hmr : 0 ≤ mr) (hM : P0 * mr ≤ M) :
    ∀ k : ℕ, idealBalance mr M P0 k ≤ P0 := by
  intro k
  induction k with
  | zero => simp [idealBalance]
  | succ n ih =>
    rw [idealBalance]
    have h1 : idealBalance mr M P0 n * (1 + mr) ≤ P0 * (1 + mr) :=
      mul_le_mul_of_nonneg_right ih (by linarith)
    nlinarith

lemma payment_ge (P0 r : ℚ) (y : ℤ) (hP0 : 0 < P0) (hy : 1 ≤ y) (hr : 0 ≤ r) :
    P0 * (r / 12 / 100) ≤ calculate_mortgage P0 r y 0 := by
  have hy0 : (0 : ℤ) < y := by omega
  rcases eq_or_lt_of_le hr with hr0 | hrpos
  · rw [← hr0, calculate_mortgage_of_rate_zero P0 0 y (by simpa using hP0) hy0]
    have hyq : (0 : ℚ) < (y : ℚ) := by exact_mod_cast hy0
    have h0 : P0 * ((0 : ℚ) / 12 / 100) = 0 := by norm_num
    rw [h0, sub_zero]
    positivity
  · rw [calculate_mortgage_of_rate_ne P0 r 0 y (by simpa using hP0) hy0 hrpos.ne']
    have hn : ((y * 12).toNat : ℕ) ≠ 0 := by
      simp only [ne_eq, Int.toNat_eq_zero, not_le]
      omega
    have hmr : 0 < r / 12 / 100 := by positivity
    have hx : 1 < (1 + r / 12 / 100) ^ (y * 12).toNat := one_lt_pow₀ (by linarith) hn
    rw [sub_zero, mul_div_assoc]
    have key : r / 12 / 100 ≤
        r / 12 / 100 * (1 + r / 12 / 100) ^ (y * 12).toNat /
          ((1 + r / 12 / 100) ^ (y * 12).toNat - 1) := by
      rw [le_div_iff₀ (by linarith)]
      nlinarith
    nlinarith

lemma payment_sum (P0 r : ℚ) (y : ℤ) (hP0 : 0 < P0) (hy : 1 ≤ y) (hr : 0 ≤ r) :
    calculate_mortgage P0 r y 0 *
        ∑ i in Finset.range (y * 12).toNat, (1 + r / 12 / 100) ^ i
      = P0 * (1 + r / 12 / 100) ^ (y * 12).toNat := by
  have hy0 : (0 : ℤ) < y := by omega
  have hyq : (0 : ℚ) < (y : ℚ) := by exact_mod_cast hy0
  have hncast : (((y * 12).toNat : ℕ) : ℚ) = (y : ℚ) * 12 := by
    have h1 : (((y * 12).toNat : ℕ) : ℤ) = y * 12 := Int.toNat_of_nonneg (by omega)
    have h2 : (((y * 12).toNat : ℕ) : ℚ) = ((y * 12 : ℤ) : ℚ) := by exact_mod_cast h1
    rw [h2]
    push_cast
    ring
  rcases eq_or_lt_of_le hr with hr0 | hrpos
  · rw [← hr0, calculate_mortgage_of_rate_zero P0 0 y (by simpa using hP0) hy0]
    simp only [zero_div, add_zero, one_pow, sub_zero, mul_one, Finset.sum_const,
      Finset.card_range, nsmul_eq_mul]
    rw [hncast, div_mul_cancel₀ _ (by positivity : (y : ℚ) * 12 ≠ 0)]
  · have hn : ((y * 12).toNat : ℕ) ≠ 0 := by
      simp only [ne_eq, Int.toNat_eq_zero, not_le]
      omega
    have hmr : 0 < r / 12 / 100 := by positivity
    have hmr' : r / 12 / 100 ≠ 0 := hmr.ne'
    have hx : 1 < (1 + r / 12 / 100) ^ (y * 12).toNat := one_lt_pow₀ (by linarith) hn
    have hxne : (1 + r / 12 / 100 : ℚ) ≠ 1 := by
      intro h
      have h0 : r / 12 / 100 = 0 := by linarith
      exact hmr' h0
    have hd1 : (1 + r / 12 / 100) ^ (y * 12).toNat - 1 ≠ 0 :=
      sub_ne_zero.mpr (ne_of_gt hx)
    rw [calculate_mortgage_of_rate_ne P0 r 0 y (by simpa using hP0) hy0 hrpos.ne',
      sub_zero, geom_sum_eq hxne, add_sub_cancel_left, div_mul_div_comm,
      div_eq_iff (mul_ne_zero hd1 hmr')]
    ring

lemma amortLoop_last_zero (mr M e P0 : ℚ) (hmr : 0 ≤ mr) (he : 0 ≤ e)
    (hM : P0 * mr ≤ M) (n : ℕ) (hun : idealBalance mr M P0 n = 0) :
    ∀ (f j : ℕ) (b : ℚ) (m : ℕ) (d : AmortRow), f + j = n → 0 < b →
      b ≤ idealBalance mr M P0 j →
      ((amortLoop mr M e b m f).getLastD d).remainingBalance = 0 := by
  intro f
  induction f with
  | zero =>
    intro j b m d hfj hb hbu
    exfalso
    rw [Nat.zero_add] at hfj
    subst hfj
    rw [hun] at hbu
    linarith
  | succ f' ih =>
    intro j b m d hfj hb hbu
    rw [amortLoop_succ]
    by_cases hbr : b - amortPP mr M e b ≤ 0
    · rw [if_pos hbr]
      simp only [List.getLastD_cons, List.getLastD_nil]
      exact max_eq_right hbr
    · rw [if_neg hbr]
      have hb' : 0 < b - amortPP mr M e b := lt_of_not_le hbr
      have hbu' : b - amortPP mr M e b ≤ idealBalance mr M P0 (j + 1) := by
        have hucap : ¬b < M - b * mr + e := by
          intro hcap
          have hz : b - amortPP mr M e b = 0 := by
            unfold amortPP
            rw [if_pos hcap]
            ring
          rw [hz] at hb'
          exact lt_irrefl 0 hb'
        have hpp : amortPP mr M e b = M - b * mr + e := by
          unfold amortPP
          rw [if_neg hucap]
        rw [hpp, idealBalance]
        have hmul : b * (1 + mr) ≤ idealBalance mr M P0 j * (1 + mr) :=
          mul_le_mul_of_nonneg_right hbu (by linarith)
        have hexp : b * (1 + mr) = b + b * mr := by ring
        linarith
      rw [List.getLastD_cons]
      exact ih (j + 1) _ (m + 1) _ (by omega) hb' hbu'

/-- C5: for property value above the down payment, a term of at least one
year, non-negative rate and non-negative extra payment, the amortization
schedule is non-empty, has at most `termYears·12` rows, its remaining
balances are monotonically non-increasing, every non-final row has a
positive remaining balance (the loop stops at the first month the balance
reaches `0` or below), and the final remaining balance is below `1`
(in exact arithmetic it is `0`); a property value at most the down payment
yields an empty schedule. -/
theorem C5_amortization_schedule :
    (∀ (V r d e : ℚ) (y : ℤ), d < V → 1 ≤ y → 0 ≤ r → 0 ≤ e →
      calculate_amortization V r y d e ≠ [] ∧
        (calculate_amortization V r y d e).length ≤ (y * 12).toNat ∧
        List.Chain' (fun a c => c.remainingBalance ≤ a.remainingBalance)
          (calculate_amortization V r y d e) ∧
        (∀ i : ℕ, i + 1 < (calculate_amortization V r y d e).length →
          0 < ((calculate_amortization V r y d e).getD i
            ⟨0, 0, 0, 0, 0⟩).remainingBalance) ∧
        ((calculate_amortization V r y d e).getLastD
          ⟨0, 0, 0, 0, 0⟩).remainingBalance < 1) ∧
    (∀ (V r d e : ℚ) (y : ℤ), V ≤ d → calculate_amortization V r y d e = []) := by
  constructor
  · intro V r d e y hVd hy hr he
    have hP0 : 0 < V - d := by linarith
    have hmr : 0 ≤ r / 12 / 100 := by positivity
    have hM := payment_ge (V - d) r y hP0 hy hr
    have hcalc : calculate_amortization V r y d e =
        amortLoop (r / 12 / 100) (calculate_mortgage (V - d) r y 0) e (V - d) 1
          (y * 12).toNat := by
      simp [calculate_amortization, not_le.mpr hVd]
    have hnpos : 0 < (y * 12).toNat := by omega
    have hun : idealBalance (r / 12 / 100) (calculate_mortgage (V - d) r y 0)
        (V - d) ((y * 12).toNat) = 0 := by
      rw [idealBalance_closed]
      have := payment_sum (V - d) r y hP0 hy hr
      linarith
    refine ⟨?_, ?_, ?_, ?_, ?_⟩
    · rw [hcalc]
      exact amortLoop_ne_nil _ _ _ _ _ _ hnpos
    · rw [hcalc]
      exact amortLoop_length _ _ _ _ _ _
    · rw [hcalc]
      exact amortLoop_chain _ _ _ (V - d) hmr he hM _ _ _ hP0 le_rfl
    · rw [hcalc]
      exact fun i hi => amortLoop_mid_pos _ _ _ _ _ _ i hi
    · have h0 := amortLoop_last_zero (r / 12 / 100)
        (calculate_mortgage (V - d) r y 0) e (V - d) hmr he hM
        ((y * 12).toNat) hun ((y * 12).toNat) 0 (V - d) 1 ⟨0, 0, 0, 0, 0⟩
        (by omega) hP0 (by simp [idealBalance])
      rw [hcalc, h0]
      norm_num
  · intro V r d e y h
    simp [calculate_amortization, h]

theorem C5_amortization_schedule_witness :
    (calculate_amortization 1200 0 1 0 0 ≠ [] ∧
      (calculate_amortization 1200 0 1 0 0).length ≤ ((1 : ℤ) * 12).toNat ∧
      List.Chain' (fun a c => c.remainingBalance ≤ a.remainingBalance)
        (calculate_amortization 1200 0 1 0 0) ∧
      (∀ i : ℕ, i + 1 < (calculate_amortization 1200 0 1 0 0).length →
        0 < ((calculate_amortization 1200 0 1 0 0).getD i
          ⟨0, 0, 0, 0, 0⟩).remainingBalance) ∧
      ((calculate_amortization 1200 0 1 0 0).getLastD
        ⟨0, 0, 0, 0, 0⟩).remainingBalance < 1) ∧
    calculate_amortization 100 0 1 100 0 = [] :=
  ⟨C5_amortization_schedule.1 1200 0 0 0 1 (by norm_num) (by norm_num) le_rfl
      le_rfl,
    C5_amortization_schedule.2 100 0 100 0 1 (by norm_num)⟩

/-! ### Helper lemmas for RSU vesting (claim C2) -/

lemma process_vesting_vested_ne {x i : ℕ} (hx : x ≠ i) (months : ℕ)
    (stock_prices : List ℚ) (usd_to_eur transaction_fee_usd selling_loss_usd : ℚ)
    (data : RSUData) (v : ℕ) :
    (process_vesting months stock_prices usd_to_eur transaction_fee_usd
      selling_loss_usd data i v).vested x = data.vested x := by
  unfold process_vesting
  split
  · rfl
  · simp [addAt, Function.update_noteq hx]

lemma process_vesting_vested_eq {i v months : ℕ} (hv : v ≠ 0) (hi : i < months)
    (stock_prices : List ℚ) (usd_to_eur transaction_fee_usd selling_loss_usd : ℚ)
    (data : RSUData) :
    (process_vesting months stock_prices usd_to_eur transaction_fee_usd
      selling_loss_usd data i v).vested i = data.vested i + (v : ℚ) := by
  unfold process_vesting
  rw [if_neg (by push_neg; exact ⟨hv, by omega⟩)]
  simp [addAt, Function.update_same]

lemma tranche_sum_pos (total tq k : ℕ) (htot : 0 < total) :
    0 < ∑ q in Finset.range (k + 1), rsu_tranche (total / tq) (total % tq) q := by
  have h1 := Nat.div_add_mod total tq
  have h0 : 0 < rsu_tranche (total / tq) (total % tq) 0 := by
    unfold rsu_tranche
    rcases Nat.eq_zero_or_pos (total / tq) with hb | hb
    · have hrem : 0 < total % tq := by
        rw [hb, Nat.mul_zero, Nat.zero_add] at h1
        omega
      rw [hb, if_pos hrem]
      omega
    · split <;> omega
  exact lt_of_lt_of_le h0
    (Finset.single_le_sum (fun i _ => Nat.zero_le _) (Finset.mem_range.mpr (by omega)))

lemma rsu_fold_vested (stock_prices : List ℚ)
    (usd_to_eur transaction_fee_usd selling_loss_usd : ℚ)
    (so dm base rem dqs : ℕ)
    (hdqs : dqs = dm / 3) (hdm3 : dm % 3 = 0) (hdm0 : 0 < dm)
    (hhor : so + dm + 3 ≤ stock_prices.length)
    (hS : 0 < ∑ q in Finset.range (dqs + 1), rsu_tranche base rem q) :
    ∀ k : ℕ,
      (∀ i : ℕ, i < so + dm + 2 →
        ((List.range k).foldl (rsu_quarter_step stock_prices.length stock_prices
          usd_to_eur transaction_fee_usd selling_loss_usd so dm base rem dqs)
          rsuZero).vested i = 0) ∧
      ((List.range k).foldl (rsu_quarter_step stock_prices.length stock_prices
          usd_to_eur transaction_fee_usd selling_loss_usd so dm base rem dqs)
          rsuZero).vested (so + dm + 2)
        = if dqs < k
          then ((∑ q in Finset.range (dqs + 1), rsu_tranche base rem q : ℕ) : ℚ)
          else 0 := by
  intro k
  induction k with
  | zero => simp [rsuZero]
  | succ k ih =>
    obtain ⟨ih1, ih2⟩ := ih
    rw [List.range_succ, List.foldl_append, List.foldl_cons, List.foldl_nil]
    rcases lt_trichotomy k dqs with hk | hk | hk
    · have hskip : (k + 1) * 3 ≤ dm := by omega
      simp only [rsu_quarter_step]
      rw [if_pos hskip]
      refine ⟨ih1, ?_⟩
      rw [ih2, if_neg (by omega), if_neg (by omega)]
    · subst hk
      have hnoskip : ¬(k + 1) * 3 ≤ dm := by omega
      have hsum : (∑ dq in Finset.range k, rsu_tranche base rem dq)
          + rsu_tranche base rem k
          = ∑ q in Finset.range (k + 1), rsu_tranche base rem q :=
        (Finset.sum_range_succ _ k).symm
      have hv0 : (∑ dq in Finset.range k, rsu_tranche base rem dq)
          + rsu_tranche base rem k ≠ 0 := by
        rw [hsum]
        omega
      simp only [rsu_quarter_step]
      rw [if_neg hnoskip, if_pos (show True ∧ 0 < k from ⟨trivial, by omega⟩)]
      simp only [show so + dm + 3 - 1 = so + dm + 2 by omega]
      constructor
      · intro i hi
        rw [process_vesting_vested_ne (by omega)]
        exact ih1 i hi
      · rw [process_vesting_vested_eq hv0 (by omega), ih2,
          if_neg (by omega), if_pos (by omega), zero_add]
        exact_mod_cast congrArg Nat.cast hsum
    · have hnoskip : ¬(k + 1) * 3 ≤ dm := by omega
      have hcond : ¬(k = dqs ∧ 0 < dqs) := by
        rintro ⟨h1, h2⟩
        omega
      simp only [rsu_quarter_step]
      rw [if_neg hnoskip, if_neg hcond]
      constructor
      · intro i hi
        rw [process_vesting_vested_ne (by omega)]
        exact ih1 i hi
      · rw [process_vesting_vested_ne (by omega), ih2, if_pos (by omega),
          if_pos (by omega)]

/-- C2: for an RSU block whose vesting period and cliff are positive multiples
of 3 with the cliff shorter than the vesting period, a positive stock count
and a horizon covering the first post-cliff payout, no vesting is recorded at
any 1-based month before `startOffset + delayMonths + 3`, and at that month
the vested count equals the sum of the quarterly tranches of the cliff
quarters plus the concurrent quarter; in particular totalStocks 480,
vestMonths 48, delayMonths 12, startOffset 2 over a 17-month horizon vests
nothing before month 17 and 150 shares at month 17. -/
theorem C2_rsu_cliff (total vm dm so : ℕ) (stock_prices : List ℚ)
    (usd_to_eur transaction_fee_usd selling_loss_usd : ℚ)
    (hvm3 : vm % 3 = 0) (hvm0 : 0 < vm) (hdm3 : dm % 3 = 0) (hdm0 : 0 < dm)
    (hlt : dm < vm) (htot : 0 < total)
    (hhor : so + dm + 3 ≤ stock_prices.length) :
    ((∀ m : ℕ, 1 ≤ m → m < so + dm + 3 →
      (calculate_rsu_vesting total vm stock_prices so dm usd_to_eur
        transaction_fee_usd selling_loss_usd).vested (m - 1) = 0) ∧
      (calculate_rsu_vesting total vm stock_prices so dm usd_to_eur
        transaction_fee_usd selling_loss_usd).vested (so + dm + 2)
        = ((∑ q in Finset.range (dm / 3 + 1),
            rsu_tranche (total / (vm / 3)) (total % (vm / 3)) q : ℕ) : ℚ) ∧
      0 < ∑ q in Finset.range (dm / 3 + 1),
            rsu_tranche (total / (vm / 3)) (total % (vm / 3)) q) ∧
    ((∀ m : ℕ, m < 16 →
      (calculate_rsu_vesting 480 48 (List.replicate 17 40) 2 12 1 (999 / 100)
        (5 / 100)).vested m = 0) ∧
      (calculate_rsu_vesting 480 48 (List.replicate 17 40) 2 12 1 (999 / 100)
        (5 / 100)).vested 16 = 150) := by
  have hS := tranche_sum_pos total (vm / 3) (dm / 3) htot
  have hcalc : calculate_rsu_vesting total vm stock_prices so dm usd_to_eur
      transaction_fee_usd selling_loss_usd
      = (List.range (vm / 3)).foldl (rsu_quarter_step stock_prices.length
          stock_prices usd_to_eur transaction_fee_usd selling_loss_usd so dm
          (total / (vm / 3)) (total % (vm / 3)) (dm / 3)) rsuZero := by
    simp only [calculate_rsu_vesting]
    rw [if_neg (show ¬vm / 3 = 0 by omega)]
  have main := rsu_fold_vested stock_prices usd_to_eur transaction_fee_usd
    selling_loss_usd so dm (total / (vm / 3)) (total % (vm / 3)) (dm / 3) rfl
    hdm3 hdm0 hhor hS (vm / 3)
  have hS2 := tranche_sum_pos 480 (48 / 3) (12 / 3) (by norm_num)
  have hcalc2 : calculate_rsu_vesting 480 48 (List.replicate 17 40) 2 12 1
      (999 / 100) (5 / 100)
      = (List.range ((48 : ℕ) / 3)).foldl
          (rsu_quarter_step (List.replicate (17 : ℕ) (40 : ℚ)).length
            (List.replicate 17 40) 1 (999 / 100) (5 / 100) 2 12
            (480 / (48 / 3)) (480 % (48 / 3)) (12 / 3)) rsuZero := by
    simp only [calculate_rsu_vesting]
    rw [if_neg (by norm_num)]
  have main2 := rsu_fold_vested (List.replicate 17 40) 1 (999 / 100) (5 / 100)
    2 12 (480 / (48 / 3)) (480 % (48 / 3)) (12 / 3) rfl (by norm_num)
    (by norm_num) (by simp) hS2 (48 / 3)
  refine ⟨⟨?_, ?_, hS⟩, ?_, ?_⟩
  · intro m hm1 hm2
    rw [hcalc]
    exact main.1 (m - 1) (by omega)
  · rw [hcalc, main.2, if_pos (by omega)]
  · intro m hm
    rw [hcalc2]
    exact main2.1 m (by omega)
  · have h16 : (2 : ℕ) + 12 + 2 = 16 := by norm_num
    have hkey := main2.2
    rw [h16] at hkey
    rw [hcalc2, hkey, if_pos (by norm_num)]
    norm_num [Finset.sum_range_succ, rsu_tranche]

theorem C2_rsu_cliff_witness :
    ((∀ m : ℕ, 1 ≤ m → m < 2 + 12 + 3 →
      (calculate_rsu_vesting 480 48 (List.replicate 17 40) 2 12 1 (999 / 100)
        (5 / 100)).vested (m - 1) = 0) ∧
      (calculate_rsu_vesting 480 48 (List.replicate 17 40) 2 12 1 (999 / 100)
        (5 / 100)).vested (2 + 12 + 2)
        = ((∑ q in Finset.range (12 / 3 + 1),
            rsu_tranche (480 / (48 / 3)) (480 % (48 / 3)) q : ℕ) : ℚ) ∧
      0 < ∑ q in Finset.range (12 / 3 + 1),
            rsu_tranche (480 / (48 / 3)) (480 % (48 / 3)) q) ∧
    ((∀ m : ℕ, m < 16 →
      (calculate_rsu_vesting 480 48 (List.replicate 17 40) 2 12 1 (999 / 100)
        (5 / 100)).vested m = 0) ∧
      (calculate_rsu_vesting 480 48 (List.replicate 17 40) 2 12 1 (999 / 100)
        (5 / 100)).vested 16 = 150) :=
  C2_rsu_cliff 480 48 12 2 (List.replicate 17 40) 1 (999 / 100) (5 / 100)
    (by norm_num) (by norm_num) (by norm_num) (by norm_num) (by norm_num)
    (by norm_num) (by simp)

/-! ### Helper lemmas for ESPP vesting (claim C8) -/

lemma mod_succ_key (a n : ℕ) : (a + 1) % n = (a % n + 1) % n := by
  conv_lhs => rw [← Nat.mod_add_div a n]
  rw [Nat.add_right_comm (a % n) (n * (a / n)) 1, Nat.mul_comm n (a / n),
    Nat.add_mul_mod_self_right]

lemma mod_succ_of_ne (a n : ℕ) (hn : 0 < n) (h : (a + 1) % n ≠ 0) :
    (a + 1) % n = a % n + 1 := by
  have key := mod_succ_key a n
  have h3 : a % n < n := Nat.mod_lt _ hn
  rcases Nat.lt_or_ge (a % n + 1) n with hlt | hge
  · rw [key, Nat.mod_eq_of_lt hlt]
  · have heq : a % n + 1 = n := by omega
    exfalso
    apply h
    rw [key, heq, Nat.mod_self]

lemma mod_succ_eq_zero (a n : ℕ) (hn : 0 < n) (h : (a + 1) % n = 0) :
    a % n = n - 1 := by
  have key := mod_succ_key a n
  have h3 : a % n < n := Nat.mod_lt _ hn
  rcases Nat.lt_or_ge (a % n + 1) n with hlt | hge
  · rw [key, Nat.mod_eq_of_lt hlt] at h
    omega
  · omega

lemma espp_acc_invariant (gross_income contribution_percent : ℚ)
    (stock_prices : List ℚ) (discount_rate : ℚ) (iv so : ℕ) (hiv : 0 < iv) :
    ∀ m : ℕ,
      (espp_state gross_income contribution_percent stock_prices discount_rate
        iv so m).accumulated_contribution
      = if so ≤ m
        then gross_income * contribution_percent * (((m - so) % iv : ℕ) : ℚ)
        else 0 := by
  intro m
  induction m with
  | zero =>
    simp only [espp_state]
    split
    · rename_i hso
      have h0 : (0 - so) % iv = 0 := by rw [Nat.zero_sub, Nat.zero_mod]
      rw [h0]
      simp
    · rfl
  | succ m ih =>
    simp only [espp_state]
    by_cases hso : so ≤ m
    · rw [if_pos hso]
      by_cases hev : espp_is_event so iv m
      · rw [if_pos hev]
        obtain ⟨h1, h2⟩ := hev
        have hz : (m + 1 - so) % iv = 0 := by
          have he1 : m + 1 - so = m - so + 1 := by omega
          rw [he1]
          exact h2
        rw [if_pos (by omega), hz]
        simp
      · rw [if_neg hev]
        dsimp only
        rw [ih, if_pos hso, if_pos (by omega : so ≤ m + 1)]
        have hne : (m - so + 1) % iv ≠ 0 := fun h0 => hev ⟨hso, h0⟩
        have hstep : (m + 1 - so) % iv = (m - so) % iv + 1 := by
          have he1 : m + 1 - so = m - so + 1 := by omega
          rw [he1]
          exact mod_succ_of_ne (m - so) iv hiv hne
        rw [hstep]
        push_cast
        ring
    · rw [if_neg hso, ih, if_neg hso]
      by_cases hso1 : so ≤ m + 1
      · rw [if_pos hso1]
        have h0 : m + 1 - so = 0 := by omega
        rw [h0]
        simp
      · rw [if_neg hso1]

/-- C8: in `calculate_espp_vesting` a purchase fires exactly at the months
`m` with `m ≥ startOffset` and `(m − startOffset + 1) % interval = 0`
(every `interval` months counted from the start offset); at such a month the
buy price is `min(periodStartPrice, currentPrice)·(1 − discountRate)`, the
shares bought equal the contribution accumulated since the previous event
(`interval` months of `grossIncome·contributionRate`) divided by the buy
price, with `0` shares and no division fault when the buy price is not
positive; after the purchase the accumulated contribution resets to `0` and
the period start price resets to the current month's price. -/
theorem C8_espp_purchase_rule (gross_income contribution_percent : ℚ)
    (stock_prices : List ℚ) (discount_rate : ℚ) (iv so : ℕ) (hiv : 0 < iv) :
    (∀ m : ℕ, m < stock_prices.length →
      ((calculate_espp_vesting gross_income contribution_percent stock_prices
          discount_rate iv so).getD m ⟨0, 0, 0, 0, 0, 0⟩).stocksBought
        = espp_stocks_bought gross_income contribution_percent stock_prices
            discount_rate iv so m) ∧
    (∀ m : ℕ, ¬espp_is_event so iv m →
      espp_stocks_bought gross_income contribution_percent stock_prices
        discount_rate iv so m = 0) ∧
    (∀ m : ℕ, espp_is_event so iv m →
      (0 < min (espp_state gross_income contribution_percent stock_prices
            discount_rate iv so m).period_start_price (stock_prices.getD m 0)
            * (1 - discount_rate) →
        espp_stocks_bought gross_income contribution_percent stock_prices
            discount_rate iv so m
          = (iv : ℚ) * (gross_income * contribution_percent) /
              (min (espp_state gross_income contribution_percent stock_prices
                discount_rate iv so m).period_start_price
                (stock_prices.getD m 0) * (1 - discount_rate))) ∧
      (min (espp_state gross_income contribution_percent stock_prices
            discount_rate iv so m).period_start_price (stock_prices.getD m 0)
            * (1 - discount_rate) ≤ 0 →
        espp_stocks_bought gross_income contribution_percent stock_prices
          discount_rate iv so m = 0) ∧
      (espp_state gross_income contribution_percent stock_prices discount_rate
        iv so (m + 1)).accumulated_contribution = 0 ∧
      (espp_state gross_income contribution_percent stock_prices discount_rate
        iv so (m + 1)).period_start_price = stock_prices.getD m 0) := by
  have hacc : ∀ m : ℕ, espp_is_event so iv m →
      (espp_state gross_income contribution_percent stock_prices discount_rate
        iv so m).accumulated_contribution + gross_income * contribution_percent
      = (iv : ℚ) * (gross_income * contribution_percent) := by
    intro m hev
    obtain ⟨h1, h2⟩ := hev
    rw [espp_acc_invariant gross_income contribution_percent stock_prices
      discount_rate iv so hiv m, if_pos h1,
      mod_succ_eq_zero (m - so) iv hiv h2]
    have hcast : (((iv - 1 : ℕ)) : ℚ) = (iv : ℚ) - 1 := by
      rw [Nat.cast_sub (by omega)]
      simp
    rw [hcast]
    ring
  refine ⟨?_, ?_, ?_⟩
  · intro m hm
    unfold calculate_espp_vesting
    rw [List.getD_eq_getElem?_getD, List.getElem?_map,
      List.getElem?_range hm]
    rfl
  · intro m hev
    unfold espp_stocks_bought
    rw [if_neg hev]
  · intro m hev
    refine ⟨?_, ?_, ?_, ?_⟩
    · intro hbp
      unfold espp_stocks_bought
      rw [if_pos hev]
      dsimp only
      rw [if_pos hbp, hacc m hev]
    · intro hbp
      unfold espp_stocks_bought
      rw [if_pos hev]
      dsimp only
      rw [if_neg (not_lt.mpr hbp)]
    · simp only [espp_state]
      rw [if_pos hev.1, if_pos hev]
    · simp only [espp_state]
      rw [if_pos hev.1, if_pos hev]

theorem C8_espp_purchase_rule_witness :
    (∀ m : ℕ, m < (List.replicate 6 (10 : ℚ)).length →
      ((calculate_espp_vesting 1000 (1 / 10) (List.replicate 6 10)
          (15 / 100) 6 0).getD m ⟨0, 0, 0, 0, 0, 0⟩).stocksBought
        = espp_stocks_bought 1000 (1 / 10) (List.replicate 6 10)
            (15 / 100) 6 0 m) ∧
    (∀ m : ℕ, ¬espp_is_event 0 6 m →
      espp_stocks_bought 1000 (1 / 10) (List.replicate 6 10)
        (15 / 100) 6 0 m = 0) ∧
    (∀ m : ℕ, espp_is_event 0 6 m →
      (0 < min (espp_state 1000 (1 / 10) (List.replicate 6 10)
            (15 / 100) 6 0 m).period_start_price
            ((List.replicate 6 (10 : ℚ)).getD m 0) * (1 - 15 / 100) →
        espp_stocks_bought 1000 (1 / 10) (List.replicate 6 10)
            (15 / 100) 6 0 m
          = ((6 : ℕ) : ℚ) * (1000 * (1 / 10)) /
              (min (espp_state 1000 (1 / 10) (List.replicate 6 10)
                (15 / 100) 6 0 m).period_start_price
                ((List.replicate 6 (10 : ℚ)).getD m 0) * (1 - 15 / 100))) ∧
      (min (espp_state 1000 (1 / 10) (List.replicate 6 10)
            (15 / 100) 6 0 m).period_start_price
            ((List.replicate 6 (10 : ℚ)).getD m 0) * (1 - 15 / 100) ≤ 0 →
        espp_stocks_bought 1000 (1 / 10) (List.replicate 6 10)
          (15 / 100) 6 0 m = 0) ∧
      (espp_state 1000 (1 / 10) (List.replicate 6 10) (15 / 100) 6 0
        (m + 1)).accumulated_contribution = 0 ∧
      (espp_state 1000 (1 / 10) (List.replicate 6 10) (15 / 100) 6 0
        (m + 1)).period_start_price
        = (List.replicate 6 (10 : ℚ)).getD m 0) :=
  C8_espp_purchase_rule 1000 (1 / 10) (List.replicate 6 10) (15 / 100) 6 0
    (by norm_num)

/-! ### Net-worth projection: concrete parameter sets and access lemmas -/

lemma nw_getD (p : NWParams) (m : ℕ) (hm : m ≤ p.years * 12) (d : Snapshot) :
    (calculate_net_worth p).getD m d = net_worth_snapshot p m := by
  unfold calculate_net_worth
  rw [List.getD_eq_getElem?_getD, List.getElem?_map,
    List.getElem?_range (by omega)]
  rfl

lemma nw_getLastD (p : NWParams) (d : Snapshot) :
    (calculate_net_worth p).getLastD d = net_worth_snapshot p (p.years * 12) := by
  have hlen : (calculate_net_worth p).length = p.years * 12 + 1 := by
    unfold calculate_net_worth
    simp
  rw [List.getLastD_eq_getLast?, List.getLast?_eq_getElem?, hlen]
  unfold calculate_net_worth
  rw [List.getElem?_map, List.getElem?_range (by omega)]
  rfl

lemma c9a_cash : monthly_cash_flow nwC9a = 1750 / 3 := by
  norm_num [monthly_cash_flow, nw_monthly_income, nw_monthly_payment,
    total_monthly_income, total_monthly_expenses, calculate_mortgage, nwC9a]

lemma c9b_cash : monthly_cash_flow nwC9b = 3250 / 3 := by
  norm_num [monthly_cash_flow, nw_monthly_income, nw_monthly_payment,
    total_monthly_income, total_monthly_expenses, calculate_mortgage, nwC9b,
    nwC9a]

lemma c9a_stock : ∀ m : ℕ, (bankStock nwC9a m).2 = 10000 + 500 * (m : ℚ) := by
  intro m
  induction m with
  | zero => norm_num [bankStock, nwC9a]
  | succ k ih =>
    simp only [bankStock]
    rw [if_pos (by rw [c9a_cash]; norm_num)]
    dsimp only
    rw [ih, c9a_cash]
    norm_num [nwC9a, nw_dividend_reinvest]
    ring

lemma c9b_stock : ∀ m : ℕ, (bankStock nwC9b m).2 = 10000 := by
  intro m
  induction m with
  | zero => norm_num [bankStock, nwC9b, nwC9a]
  | succ k ih =>
    simp only [bankStock]
    rw [if_pos (by rw [c9b_cash]; norm_num)]
    dsimp only
    rw [ih, c9b_cash]
    norm_num [nwC9b, nwC9a, nw_dividend_reinvest]

/-- C9: with `reinvest_dividends = true` the stock income is excluded from
regular income and added directly to stock wealth each month; with `false` it
is counted as regular income subject to the bank-reserve split; consequently,
with zero stock growth, stock income 500/month, initial stock wealth 10000
and a 1-year horizon (bankReserveRatio 1.0), the final stock wealth is 16000
within 1 when reinvesting and stays at 10000 within 1 when not. -/
theorem C9_reinvest_semantics :
    (∀ p : NWParams, p.reinvest_dividends = true →
      nw_monthly_income p = p.monthly_income1 + p.monthly_income2 ∧
      nw_dividend_reinvest p = p.stock_income) ∧
    (∀ p : NWParams, p.reinvest_dividends = false →
      nw_monthly_income p
          = p.monthly_income1 + p.monthly_income2 + p.stock_income ∧
      nw_dividend_reinvest p = 0) ∧
    |((calculate_net_worth nwC9a).getLastD nwDummy).stockWealth - 16000| < 1 ∧
    |((calculate_net_worth nwC9b).getLastD nwDummy).stockWealth - 10000| < 1 := by
  refine ⟨?_, ?_, ?_, ?_⟩
  · intro p hp
    constructor
    · simp [nw_monthly_income, total_monthly_income, hp]
    · simp [nw_dividend_reinvest, hp]
  · intro p hp
    constructor
    · simp [nw_monthly_income, total_monthly_income, hp]
    · simp [nw_dividend_reinvest, hp]
  · rw [nw_getLastD]
    show |(bankStock nwC9a (nwC9a.years * 12)).2 - 16000| < 1
    rw [c9a_stock]
    norm_num [nwC9a]
  · rw [nw_getLastD]
    show |(bankStock nwC9b (nwC9b.years * 12)).2 - 10000| < 1
    rw [c9b_stock]
    norm_num

theorem C9_reinvest_semantics_witness :
    (nw_monthly_income nwC9a = nwC9a.monthly_income1 + nwC9a.monthly_income2 ∧
      nw_dividend_reinvest nwC9a = nwC9a.stock_income) ∧
    (nw_monthly_income nwC9b
        = nwC9b.monthly_income1 + nwC9b.monthly_income2 + nwC9b.stock_income ∧
      nw_dividend_reinvest nwC9b = 0) ∧
    |((calculate_net_worth nwC9a).getLastD nwDummy).stockWealth - 16000| < 1 ∧
    |((calculate_net_worth nwC9b).getLastD nwDummy).stockWealth - 10000| < 1 :=
  ⟨C9_reinvest_semantics.1 nwC9a rfl, C9_reinvest_semantics.2.1 nwC9b rfl,
    C9_reinvest_semantics.2.2.1, C9_reinvest_semantics.2.2.2⟩

/-! ### Net-worth invariants (claims C6 and C1) -/

lemma nw_dividend_reinvest_nonneg (p : NWParams) (hsi : 0 ≤ p.stock_income) :
    0 ≤ nw_dividend_reinvest p := by
  unfold nw_dividend_reinvest
  split
  · exact hsi
  · exact le_rfl

lemma bankStock_nonneg (p : NWParams) (hb : 0 ≤ p.initial_bank_balance)
    (hs : 0 ≤ p.initial_stock_wealth) (hsi : 0 ≤ p.stock_income)
    (hir : -1200 ≤ p.investment_return_rate)
    (hsr : -1200 ≤ p.stock_growth_rate)
    (hr0 : 0 ≤ p.bank_reserve_ratio) (hr1 : p.bank_reserve_ratio ≤ 1) :
    ∀ m : ℕ, 0 ≤ (bankStock p m).1 ∧ 0 ≤ (bankStock p m).2 := by
  intro m
  induction m with
  | zero => exact ⟨hb, hs⟩
  | succ m ih =>
    obtain ⟨ihb, ihs⟩ := ih
    have hgb : 0 ≤ (bankStock p m).1 * (1 + p.investment_return_rate / 12 / 100) :=
      mul_nonneg ihb (by linarith)
    have hgs : 0 ≤ (bankStock p m).2 * (1 + p.stock_growth_rate / 12 / 100)
        + nw_dividend_reinvest p :=
      add_nonneg (mul_nonneg ihs (by linarith))
        (nw_dividend_reinvest_nonneg p hsi)
    simp only [bankStock]
    split_ifs with h1 h2
    · exact ⟨add_nonneg hgb (mul_nonneg h1.le hr0),
        add_nonneg hgs (mul_nonneg h1.le (by linarith))⟩
    · exact ⟨h2, hgs⟩
    · exact ⟨le_rfl, le_max_left 0 _⟩

lemma bankStock_draw_order (p : NWParams) (hr1 : p.bank_reserve_ratio ≤ 1) :
    ∀ m : ℕ,
      (bankStock p (m + 1)).2
          < (bankStock p m).2 * (1 + p.stock_growth_rate / 12 / 100)
            + nw_dividend_reinvest p →
      (bankStock p (m + 1)).1 = 0 := by
  intro m h
  simp only [bankStock] at h ⊢
  split_ifs at h ⊢ with h1 h2
  · exfalso
    have : 0 ≤ monthly_cash_flow p * (1 - p.bank_reserve_ratio) :=
      mul_nonneg h1.le (by linarith)
    dsimp only at h
    linarith
  · exfalso
    dsimp only at h
    exact lt_irrefl _ h
  · rfl

/-- C6 (amended): with non-negative initial bank balance, initial stock
wealth and stock income, bank and stock annual rates at least −1200, and a
bank-reserve ratio in `[0,1]` (an additional hypothesis the claim omits),
every snapshot of `calculate_net_worth` has `Bank Reserve ≥ 0` and
`Stock Wealth ≥ 0`, and in a shortfall month the stock bucket is reduced
only after the bank reserve has been driven to `0`. -/
theorem C6_nonneg_invariants (p : NWParams) (hb : 0 ≤ p.initial_bank_balance)
    (hs : 0 ≤ p.initial_stock_wealth) (hsi : 0 ≤ p.stock_income)
    (hir : -1200 ≤ p.investment_return_rate)
    (hsr : -1200 ≤ p.stock_growth_rate)
    (hr0 : 0 ≤ p.bank_reserve_ratio) (hr1 : p.bank_reserve_ratio ≤ 1) :
    (∀ s ∈ calculate_net_worth p, 0 ≤ s.bankReserve ∧ 0 ≤ s.stockWealth) ∧
    (∀ m : ℕ, m < p.years * 12 →
      ((calculate_net_worth p).getD (m + 1) nwDummy).stockWealth
          < ((calculate_net_worth p).getD m nwDummy).stockWealth
              * (1 + p.stock_growth_rate / 12 / 100) + nw_dividend_reinvest p →
      ((calculate_net_worth p).getD (m + 1) nwDummy).bankReserve = 0) := by
  constructor
  · intro s hmem
    unfold calculate_net_worth at hmem
    rw [List.mem_map] at hmem
    obtain ⟨m, _, rfl⟩ := hmem
    exact bankStock_nonneg p hb hs hsi hir hsr hr0 hr1 m
  · intro m hm
    rw [nw_getD p m (by omega), nw_getD p (m + 1) (by omega)]
    exact bankStock_draw_order p hr1 m

theorem C6_nonneg_invariants_witness :
    (∀ s ∈ calculate_net_worth nwWit, 0 ≤ s.bankReserve ∧ 0 ≤ s.stockWealth) ∧
    (∀ m : ℕ, m < nwWit.years * 12 →
      ((calculate_net_worth nwWit).getD (m + 1) nwDummy).stockWealth
          < ((calculate_net_worth nwWit).getD m nwDummy).stockWealth
              * (1 + nwWit.stock_growth_rate / 12 / 100)
            + nw_dividend_reinvest nwWit →
      ((calculate_net_worth nwWit).getD (m + 1) nwDummy).bankReserve = 0) :=
  C6_nonneg_invariants nwWit (by norm_num [nwWit]) (by norm_num [nwWit])
    (by norm_num [nwWit]) (by norm_num [nwWit]) (by norm_num [nwWit])
    (by norm_num [nwWit]) (by norm_num [nwWit])

theorem C6_counterexample :
    0 ≤ nwCex6.initial_bank_balance ∧ 0 ≤ nwCex6.initial_stock_wealth ∧
    0 ≤ nwCex6.stock_income ∧ -1200 ≤ nwCex6.investment_return_rate ∧
    -1200 ≤ nwCex6.stock_growth_rate ∧
    ((calculate_net_worth nwCex6).getD 1 nwDummy).stockWealth < 0 := by
  have hc : monthly_cash_flow nwCex6 = 1000 := by
    norm_num [monthly_cash_flow, nw_monthly_income, nw_monthly_payment,
      total_monthly_income, total_monthly_expenses, calculate_mortgage, nwCex6]
  have h1 : ((calculate_net_worth nwCex6).getD 1 nwDummy).stockWealth
      = (bankStock nwCex6 1).2 := by
    rw [nw_getD nwCex6 1 (by norm_num [nwCex6])]
    rfl
  rw [h1, show (1 : ℕ) = 0 + 1 from rfl]
  simp only [bankStock]
  rw [if_pos (by rw [hc]; norm_num)]
  dsimp only
  rw [hc]
  norm_num [nwCex6, nw_dividend_reinvest]

/-- C1 (amended): in every simulated month of `calculate_net_worth`, after
growth is applied to the bank and stock balances the cash flow `c` is
allocated as follows — if `c` is strictly positive it is split by the
bank-reserve ratio (`bank += c·ratio`, `stock += c·(1−ratio)`); if `c ≤ 0`
and the grown bank can absorb it (`bank + c ≥ 0`) the whole deficit is taken
from the bank and stocks are untouched; otherwise the bank becomes `0` and
the remaining shortfall is subtracted from stock wealth, floored at `0`.
(The claim's `c ≥ 0` split branch coincides with this whenever the grown
bank balance is non-negative, but not at `c = 0` with a negative bank.) -/
theorem C1_allocation_policy (p : NWParams) (m : ℕ) (hm : m < p.years * 12) :
    (0 < monthly_cash_flow p →
      ((calculate_net_worth p).getD (m + 1) nwDummy).bankReserve
        = ((calculate_net_worth p).getD m nwDummy).bankReserve
            * (1 + p.investment_return_rate / 12 / 100)
          + monthly_cash_flow p * p.bank_reserve_ratio ∧
      ((calculate_net_worth p).getD (m + 1) nwDummy).stockWealth
        = ((calculate_net_worth p).getD m nwDummy).stockWealth
            * (1 + p.stock_growth_rate / 12 / 100) + nw_dividend_reinvest p
          + monthly_cash_flow p * (1 - p.bank_reserve_ratio)) ∧
    (monthly_cash_flow p ≤ 0 →
      0 ≤ ((calculate_net_worth p).getD m nwDummy).bankReserve
            * (1 + p.investment_return_rate / 12 / 100)
          + monthly_cash_flow p →
      ((calculate_net_worth p).getD (m + 1) nwDummy).bankReserve
        = ((calculate_net_worth p).getD m nwDummy).bankReserve
            * (1 + p.investment_return_rate / 12 / 100)
          + monthly_cash_flow p ∧
      ((calculate_net_worth p).getD (m + 1) nwDummy).stockWealth
        = ((calculate_net_worth p).getD m nwDummy).stockWealth
            * (1 + p.stock_growth_rate / 12 / 100) + nw_dividend_reinvest p) ∧
    (monthly_cash_flow p ≤ 0 →
      ((calculate_net_worth p).getD m nwDummy).bankReserve
            * (1 + p.investment_return_rate / 12 / 100)
          + monthly_cash_flow p < 0 →
      ((calculate_net_worth p).getD (m + 1) nwDummy).bankReserve = 0 ∧
      ((calculate_net_worth p).getD (m + 1) nwDummy).stockWealth
        = max 0 (((calculate_net_worth p).getD m nwDummy).stockWealth
              * (1 + p.stock_growth_rate / 12 / 100) + nw_dividend_reinvest p
            - (|monthly_cash_flow p|
              - ((calculate_net_worth p).getD m nwDummy).bankReserve
                  * (1 + p.investment_return_rate / 12 / 100)))) := by
  rw [nw_getD p m (by omega), nw_getD p (m + 1) (by omega)]
  simp only [net_worth_snapshot]
  refine ⟨?_, ?_, ?_⟩
  · intro hc
    simp only [bankStock]
    rw [if_pos hc]
    exact ⟨rfl, rfl⟩
  · intro hc hb
    simp only [bankStock]
    rw [if_neg (not_lt.mpr hc), if_pos hb]
    exact ⟨rfl, rfl⟩
  · intro hc hb
    simp only [bankStock]
    rw [if_neg (not_lt.mpr hc), if_neg (not_le.mpr hb)]
    exact ⟨rfl, rfl⟩

theorem C1_allocation_policy_witness :
    (0 < monthly_cash_flow nwWit →
      ((calculate_net_worth nwWit).getD (0 + 1) nwDummy).bankReserve
        = ((calculate_net_worth nwWit).getD 0 nwDummy).bankReserve
            * (1 + nwWit.investment_return_rate / 12 / 100)
          + monthly_cash_flow nwWit * nwWit.bank_reserve_ratio ∧
      ((calculate_net_worth nwWit).getD (0 + 1) nwDummy).stockWealth
        = ((calculate_net_worth nwWit).getD 0 nwDummy).stockWealth
            * (1 + nwWit.stock_growth_rate / 12 / 100) + nw_dividend_reinvest nwWit
          + monthly_cash_flow nwWit * (1 - nwWit.bank_reserve_ratio)) ∧
    (monthly_cash_flow nwWit ≤ 0 →
      0 ≤ ((calculate_net_worth nwWit).getD 0 nwDummy).bankReserve
            * (1 + nwWit.investment_return_rate / 12 / 100)
          + monthly_cash_flow nwWit →
      ((calculate_net_worth nwWit).getD (0 + 1) nwDummy).bankReserve
        = ((calculate_net_worth nwWit).getD 0 nwDummy).bankReserve
            * (1 + nwWit.investment_return_rate / 12 / 100)
          + monthly_cash_flow nwWit ∧
      ((calculate_net_worth nwWit).getD (0 + 1) nwDummy).stockWealth
        = ((calculate_net_worth nwWit).getD 0 nwDummy).stockWealth
            * (1 + nwWit.stock_growth_rate / 12 / 100)
          + nw_dividend_reinvest nwWit) ∧
    (monthly_cash_flow nwWit ≤ 0 →
      ((calculate_net_worth nwWit).getD 0 nwDummy).bankReserve
            * (1 + nwWit.investment_return_rate / 12 / 100)
          + monthly_cash_flow nwWit < 0 →
      ((calculate_net_worth nwWit).getD (0 + 1) nwDummy).bankReserve = 0 ∧
      ((calculate_net_worth nwWit).getD (0 + 1) nwDummy).stockWealth
        = max 0 (((calculate_net_worth nwWit).getD 0 nwDummy).stockWealth
              * (1 + nwWit.stock_growth_rate / 12 / 100)
              + nw_dividend_reinvest nwWit
            - (|monthly_cash_flow nwWit|
              - ((calculate_net_worth nwWit).getD 0 nwDummy).bankReserve
                  * (1 + nwWit.investment_return_rate / 12 / 100)))) :=
  C1_allocation_policy nwWit 0 (by norm_num [nwWit])

theorem C1_counterexample :
    0 ≤ monthly_cash_flow nwCex1 ∧
    ((calculate_net_worth nwCex1).getD 1 nwDummy).bankReserve
      ≠ ((calculate_net_worth nwCex1).getD 0 nwDummy).bankReserve
          * (1 + nwCex1.investment_return_rate / 12 / 100)
        + monthly_cash_flow nwCex1 * nwCex1.bank_reserve_ratio := by
  have hc : monthly_cash_flow nwCex1 = 0 := by
    norm_num [monthly_cash_flow, nw_monthly_income, nw_monthly_payment,
      total_monthly_income, total_monthly_expenses, calculate_mortgage, nwCex1]
  constructor
  · rw [hc]
  · rw [nw_getD nwCex1 1 (by norm_num [nwCex1]),
      nw_getD nwCex1 0 (by norm_num [nwCex1])]
    simp only [net_worth_snapshot]
    have h1 : (bankStock nwCex1 1).1 = 0 := by
      rw [show (1 : ℕ) = 0 + 1 from rfl]
      simp only [bankStock]
      rw [if_neg (by rw [hc]; norm_num),
        if_neg (by rw [hc]; norm_num [bankStock, nwCex1])]
    rw [h1, hc]
    norm_num [bankStock, nwCex1]
